import Mathlib

/-
  Verification development for the datadog-agent runtime security event
  pipeline (package pkg/security/probe and the secl model package).
  Each Go function used by a claim is embedded as an executable Lean
  definition translated from the source; theorems about the claims follow
  the definitions.
-/

set_option autoImplicit false

namespace DD

/-! ## Model package (secl model, src/unnamed/part_004)

The ProcessCacheEntry reference-counting facet: refCount is a Go uint64,
so arithmetic is modulo 2^64.  The two callbacks (onRelease, releaseCb)
are modelled by nil-ness flags plus invocation counters, which record how
many times each callback has fired. -/

namespace Model

/-- Modulus of the Go uint64 type carrying ProcessCacheEntry.refCount. -/
def U64MOD : Nat := 2 ^ 64

/-- Reference-counting facet of model.ProcessCacheEntry: the refCount
field, whether each callback is non-nil, and how often each has fired. -/
structure ProcessCacheEntry where
  refCount : Nat
  hasOnRelease : Bool
  hasReleaseCb : Bool
  onReleaseFired : Nat
  releaseCbFired : Nat
deriving DecidableEq, Repr

/-- Retain increments the ref counter (uint64 increment). -/
def ProcessCacheEntry.Retain (pc : ProcessCacheEntry) : ProcessCacheEntry :=
  { pc with refCount := (pc.refCount + 1) % U64MOD }

/-- Release decrements the uint64 counter and, when it has reached zero,
fires onRelease (if non-nil) and then releaseCb (if non-nil). -/
def ProcessCacheEntry.Release (pc : ProcessCacheEntry) : ProcessCacheEntry :=
  let rc := (pc.refCount + (U64MOD - 1)) % U64MOD
  if 0 < rc then { pc with refCount := rc }
  else
    let pc1 := { pc with refCount := rc }
    let pc2 :=
      if pc1.hasOnRelease then { pc1 with onReleaseFired := pc1.onReleaseFired + 1 } else pc1
    if pc2.hasReleaseCb then { pc2 with releaseCbFired := pc2.releaseCbFired + 1 } else pc2

/-- NewProcessCacheEntry returns a fresh entry: refCount zero, the
onRelease eviction callback installed, no release callback yet. -/
def NewProcessCacheEntry : ProcessCacheEntry :=
  { refCount := 0, hasOnRelease := true, hasReleaseCb := false
    onReleaseFired := 0, releaseCbFired := 0 }

theorem uint64_decrement (r : Nat) (h1 : 0 < r) (h2 : r < U64MOD) :
    (r + (U64MOD - 1)) % U64MOD = r - 1 := by
  have h3 : r + (U64MOD - 1) = (r - 1) + U64MOD := by
    have : 0 < U64MOD := by decide
    omega
  rw [h3, Nat.add_mod_right, Nat.mod_eq_of_lt (by omega)]

theorem Release_of_one_lt (pc : ProcessCacheEntry) (h1 : 1 < pc.refCount)
    (h2 : pc.refCount < U64MOD) :
    pc.Release = { pc with refCount := pc.refCount - 1 } := by
  unfold ProcessCacheEntry.Release
  simp only [uint64_decrement pc.refCount (by omega) h2]
  rw [if_pos (by omega)]

theorem Retain_apply (pc : ProcessCacheEntry) (h : pc.refCount + 1 < U64MOD) :
    pc.Retain = { pc with refCount := pc.refCount + 1 } := by
  unfold ProcessCacheEntry.Retain
  rw [Nat.mod_eq_of_lt (by omega)]

theorem Release_iterate (k : Nat) (pc : ProcessCacheEntry)
    (hk : k < pc.refCount) (hlt : pc.refCount < U64MOD) :
    ProcessCacheEntry.Release^[k] pc = { pc with refCount := pc.refCount - k } := by
  induction k generalizing pc with
  | zero => simp
  | succ n ih =>
    rw [Function.iterate_succ_apply]
    rw [Release_of_one_lt pc (by omega) hlt]
    rw [ih _ (by simpa using by omega) (by simpa using by omega)]
    simp only [ProcessCacheEntry.mk.injEq]
    refine ⟨by omega, trivial, trivial, trivial, trivial⟩

theorem Retain_iterate (n : Nat) (pc : ProcessCacheEntry)
    (h : pc.refCount + n < U64MOD) :
    ProcessCacheEntry.Retain^[n] pc = { pc with refCount := pc.refCount + n } := by
  induction n generalizing pc with
  | zero => simp
  | succ m ih =>
    rw [Function.iterate_succ_apply]
    rw [Retain_apply pc (by omega)]
    rw [ih _ (by simpa using by omega)]
    simp only [ProcessCacheEntry.mk.injEq]
    refine ⟨by omega, trivial, trivial, trivial, trivial⟩

theorem Release_fires (pc : ProcessCacheEntry) (h : pc.refCount = 1)
    (hcb : pc.hasOnRelease = true) :
    pc.Release.onReleaseFired = pc.onReleaseFired + 1 := by
  cases pc with
  | mk rc hor hrc orf rcf =>
    simp only at h hcb
    subst h
    subst hcb
    have hz : ((1 : Nat) + (U64MOD - 1)) % U64MOD = 0 := by decide
    simp only [ProcessCacheEntry.Release, hz, lt_irrefl, if_false]
    cases hrc <;> simp

theorem Release_of_zero (pc : ProcessCacheEntry) (h : pc.refCount = 0) :
    pc.Release = { pc with refCount := U64MOD - 1 } := by
  unfold ProcessCacheEntry.Release
  rw [h]
  have hz : (0 + (U64MOD - 1)) % U64MOD = U64MOD - 1 := by decide
  rw [hz, if_pos (by decide)]

end Model

/-! ## Probe package (pkg/security/probe)

Data model shared by activity_dump.go and probe.go.  Go maps are embedded
as association lists (first binding wins, set replaces or appends), Go
strings holding paths as lists of characters so that the byte-indexing of
extractFirstParent is structural. -/

namespace Probe

/-- Credentials represents the kernel credentials of a process (secl model
package). -/
structure Credentials where
  UID : Nat
  GID : Nat
  User : String
  Group : String
  EUID : Nat
  EGID : Nat
  EUser : String
  EGroup : String
  FSUID : Nat
  FSGID : Nat
  FSUser : String
  FSGroup : String
  CapEffective : Nat
  CapPermitted : Nat
deriving DecidableEq, Repr

/-- Process carries the fields of model.Process that the activity-dump tree
reads: pid, comm, executable path, container id, cookie, credentials, and
the resolved argv list. -/
structure Process where
  Pid : Nat
  Comm : String
  PathnameStr : String
  ContainerID : String
  Cookie : Nat
  Credentials : Credentials
  Argv : List String
deriving DecidableEq, Repr

/-- Modelled from the spec: ProcessResolver.GetProcessArgv resolves the
argv list of a process from its args cache entry (argument/environment
resolution with truncation); the process resolver is not among the
embedded sources, so the resolved argv list is carried on the process. -/
def GetProcessArgv (p : Process) : List String := p.Argv

/-- ProcessCacheEntry, ancestry facet: one process execution together with
its ancestor chain.  The ancestor argument is the nearest non-fork
ancestor. -/
inductive ProcessCacheEntry where
  | mk (process : Process) (ancestor : Option ProcessCacheEntry)

/-- Process data of the entry. -/
def ProcessCacheEntry.process : ProcessCacheEntry → Process
  | .mk p _ => p

/-- Modelled from the spec: ProcessCacheEntry.GetNextAncestorNoFork (not
among the embedded sources) returns the nearest ancestor that is itself
the product of an exec, skipping pure-fork hops; the model therefore links
each entry directly to that ancestor. -/
def ProcessCacheEntry.GetNextAncestorNoFork : ProcessCacheEntry → Option ProcessCacheEntry
  | .mk _ a => a

/-- NodeGenerationType indicates if a node was generated by a runtime or
snapshot event. -/
inductive NodeGenerationType where
  | Runtime
  | Snapshot
deriving DecidableEq, Repr

/-- EventType tags of the raw records handled by Probe.handleEvent. -/
inductive EventType where
  | fileMount
  | fileUmount
  | fileOpen
  | fileMkdir
  | fileRmdir
  | fileUnlink
  | fileRename
  | fileChmod
  | fileChown
  | fileUtimes
  | fileLink
  | fileSetXAttr
  | fileRemoveXAttr
  | fork
  | exec
  | exit
  | setuid
  | setgid
  | capset
  | selinux
  | bpf
  | ptrace
  | mmap
  | mprotect
  | loadModule
  | unloadModule
  | signal
  | splice
  | mountReleased
  | invalidateDentry
  | argsEnvs
  | unknown
deriving DecidableEq, Repr

/-- FileEvent facet used by the file trie: the resolved file path. -/
structure FileEvent where
  PathnameStr : List Char
deriving DecidableEq, Repr

/-- Open-event payload fields copied into an OpenNode. -/
structure OpenEventData where
  Retval : Int
  Flags : Nat
  Mode : Nat
deriving DecidableEq, Repr

/-- Probe event facet read by the file trie: type tag, resolved timestamp
(0 is the zero time), and the open payload. -/
structure Event where
  TypeTag : EventType
  Timestamp : Nat
  Open : OpenEventData
deriving DecidableEq, Repr

/-- GetEventType returns the event type of the event (the source field is
named Type, a keyword here). -/
def Event.GetEventType (e : Event) : EventType := e.TypeTag

/-- ResolveEventTimestamp returns the resolved timestamp of the event. -/
def Event.ResolveEventTimestamp (e : Event) : Nat := e.Timestamp

/-- OpenNode contains the relevant fields of an Open event. -/
structure OpenNode where
  Retval : Int
  Flags : Nat
  Mode : Nat
deriving DecidableEq, Repr

/-- FileActivityNode holds a tree representation of a list of files: one
path segment, optional terminal file event and open metadata, first-seen
timestamp (0 when unset), and the children keyed by next path segment. -/
inductive FileActivityNode where
  | mk (Name : List Char) (File : Option FileEvent)
       (GenerationType : NodeGenerationType) (FirstSeen : Nat)
       (Open : Option OpenNode)
       (Children : List (List Char × FileActivityNode))

/-- Name of the node. -/
def FileActivityNode.Name : FileActivityNode → List Char
  | .mk n _ _ _ _ _ => n

/-- Terminal file event of the node, if observed. -/
def FileActivityNode.File : FileActivityNode → Option FileEvent
  | .mk _ f _ _ _ _ => f

/-- Generation type of the node. -/
def FileActivityNode.GenerationType : FileActivityNode → NodeGenerationType
  | .mk _ _ g _ _ _ => g

/-- First-seen timestamp of the node (0 when unset). -/
def FileActivityNode.FirstSeen : FileActivityNode → Nat
  | .mk _ _ _ t _ _ => t

/-- Open metadata of the node, if an open was observed here. -/
def FileActivityNode.Open : FileActivityNode → Option OpenNode
  | .mk _ _ _ _ o _ => o

/-- Children of the node keyed by next path segment. -/
def FileActivityNode.Children : FileActivityNode → List (List Char × FileActivityNode)
  | .mk _ _ _ _ _ c => c

/-- ProcessActivityNode holds the activity of a process: its process data,
generation type, per-process file trie roots, and child process nodes. -/
inductive ProcessActivityNode where
  | mk (Process : Process) (GenerationType : NodeGenerationType)
       (Files : List (List Char × FileActivityNode))
       (Children : List ProcessActivityNode)

/-- Process data of the node. -/
def ProcessActivityNode.Process : ProcessActivityNode → Process
  | .mk p _ _ _ => p

/-- Generation type of the node. -/
def ProcessActivityNode.GenerationType : ProcessActivityNode → NodeGenerationType
  | .mk _ g _ _ => g

/-- File trie roots of the node keyed by first path segment. -/
def ProcessActivityNode.Files : ProcessActivityNode → List (List Char × FileActivityNode)
  | .mk _ _ f _ => f

/-- Child process nodes. -/
def ProcessActivityNode.Children : ProcessActivityNode → List ProcessActivityNode
  | .mk _ _ _ c => c

/-- ActivityDump: tree roots, cookie-to-node index (paths of child indices
into the forest), argv differentiation flag, and the comm / container-id
selector. -/
structure ActivityDump where
  ProcessActivityTree : List ProcessActivityNode
  CookiesNode : List (Nat × List Nat)
  DifferentiateArgs : Bool
  Comm : String
  ContainerID : String

/-- CommMatches returns true if the ActivityDump comm matches the provided
comm. -/
def ActivityDump.CommMatches (ad : ActivityDump) (comm : String) : Bool :=
  ad.Comm == comm

/-- ContainerIDMatches returns true if the ActivityDump container ID
matches the provided container ID. -/
def ActivityDump.ContainerIDMatches (ad : ActivityDump) (containerID : String) : Bool :=
  ad.ContainerID == containerID

/-- Matches returns true if the provided entry matches the current
ActivityDump selector; a nil entry never matches. -/
def ActivityDump.Matches (ad : ActivityDump) (entry : Option ProcessCacheEntry) : Bool :=
  match entry with
  | none => false
  | some e =>
    if 0 < ad.ContainerID.length && !(ad.ContainerIDMatches e.process.ContainerID) then
      false
    else if 0 < ad.Comm.length && !(ad.CommMatches e.process.Comm) then
      false
    else
      true

/-- Matches returns true if the process fields used to generate the dump
are identical with the provided ProcessCacheEntry: comm, executable path
and credentials, plus (with matchArgs) the argv comparison loop of the
source: equal lengths, and every node argument found among the entry
arguments. -/
def ProcessActivityNode.Matches (pan : ProcessActivityNode)
    (entry : ProcessCacheEntry) (matchArgs : Bool) : Bool :=
  if pan.Process.Comm == entry.process.Comm &&
      pan.Process.PathnameStr == entry.process.PathnameStr &&
      pan.Process.Credentials == entry.process.Credentials then
    if matchArgs then
      let panArgs := GetProcessArgv pan.Process
      let entryArgs := GetProcessArgv entry.process
      if panArgs.length != entryArgs.length then false
      else panArgs.all (fun arg1 => entryArgs.any (fun arg2 => arg1 == arg2))
    else true
  else false

/-- Read of a Go map embedded as an association list. -/
def alistFind {κ ν : Type} [DecidableEq κ] (k : κ) : List (κ × ν) → Option ν
  | [] => none
  | (k2, v) :: rest => if k2 = k then some v else alistFind k rest

/-- Write of a Go map embedded as an association list: replace the first
binding of the key, or append a new binding. -/
def alistSet {κ ν : Type} [DecidableEq κ] (k : κ) (v : ν) : List (κ × ν) → List (κ × ν)
  | [] => [(k, v)]
  | (k2, v2) :: rest => if k2 = k then (k2, v) :: rest else (k2, v2) :: alistSet k v rest

theorem alistFind_set_same {κ ν : Type} [DecidableEq κ] (k : κ) (v : ν)
    (l : List (κ × ν)) : alistFind k (alistSet k v l) = some v := by
  induction l with
  | nil => simp [alistSet, alistFind]
  | cons hd tl ih =>
    obtain ⟨k2, v2⟩ := hd
    by_cases h : k2 = k <;> simp [alistSet, alistFind, h, ih]

theorem alistSet_set_same {κ ν : Type} [DecidableEq κ] (k : κ) (v : ν)
    (l : List (κ × ν)) : alistSet k v (alistSet k v l) = alistSet k v l := by
  induction l with
  | nil => simp [alistSet]
  | cons hd tl ih =>
    obtain ⟨k2, v2⟩ := hd
    by_cases h : k2 = k <;> simp [alistSet, h, ih]

/-- Index of the first slash of a path, embedding the scanning loop of
extractFirstParent. -/
def firstSlashIdx : List Char → Option Nat
  | [] => none
  | c :: rest => if c = '/' then some 0 else (firstSlashIdx rest).map (· + 1)

/-- extractFirstParent returns the first path segment and the index right
after it in the input (0 for an empty or root path). -/
def extractFirstParent (path : List Char) : List Char × Nat :=
  if path = [] then ([], 0)
  else if path = ['/'] then ([], 0)
  else
    let add : Nat := if path.head? = some '/' then 1 else 0
    let p := if path.head? = some '/' then path.tail else path
    match firstSlashIdx p with
    | some i => (p.take i, i + add)
    | none => (p, p.length + add)

theorem firstSlashIdx_lt (p : List Char) (i : Nat) (h : firstSlashIdx p = some i) :
    i < p.length := by
  induction p generalizing i with
  | nil => simp [firstSlashIdx] at h
  | cons c rest ih =>
    by_cases hc : c = '/'
    · simp [firstSlashIdx, hc] at h
      simp only [List.length_cons]
      omega
    · simp [firstSlashIdx, hc] at h
      obtain ⟨j, hj, hji⟩ := h
      have := ih j hj
      simp only [List.length_cons]
      omega

theorem firstSlashIdx_drop (p : List Char) (i : Nat) (h : firstSlashIdx p = some i) :
    p.drop i = '/' :: p.drop (i + 1) := by
  induction p generalizing i with
  | nil => simp [firstSlashIdx] at h
  | cons c rest ih =>
    by_cases hc : c = '/'
    · simp [firstSlashIdx, hc] at h
      subst h
      simp [hc]
    · simp [firstSlashIdx, hc] at h
      obtain ⟨j, hj, hji⟩ := h
      subst hji
      simpa using ih j hj

theorem extractFirstParent_nil_snd (path : List Char) (h : path = []) :
    (extractFirstParent path).2 = 0 := by
  subst h
  simp [extractFirstParent]

theorem extractFirstParent_slash_some (rest : List Char) (i : Nat)
    (hr : rest ≠ []) (hfs : firstSlashIdx rest = some i) :
    extractFirstParent ('/' :: rest) = (rest.take i, i + 1) := by
  unfold extractFirstParent
  rw [if_neg (by simp), if_neg (by simpa using hr)]
  simp [hfs]

theorem extractFirstParent_slash_none (rest : List Char)
    (hr : rest ≠ []) (hfs : firstSlashIdx rest = none) :
    extractFirstParent ('/' :: rest) = (rest, rest.length + 1) := by
  unfold extractFirstParent
  rw [if_neg (by simp), if_neg (by simpa using hr)]
  simp [hfs]

theorem extractFirstParent_cons_some (c : Char) (rest : List Char) (i : Nat)
    (hc : ¬ c = '/') (hfs : firstSlashIdx (c :: rest) = some i) :
    extractFirstParent (c :: rest) = ((c :: rest).take i, i) := by
  unfold extractFirstParent
  rw [if_neg (by simp), if_neg (by simp [hc])]
  simp [hc, hfs]

theorem extractFirstParent_cons_none (c : Char) (rest : List Char)
    (hc : ¬ c = '/') (hfs : firstSlashIdx (c :: rest) = none) :
    extractFirstParent (c :: rest) = (c :: rest, (c :: rest).length) := by
  unfold extractFirstParent
  rw [if_neg (by simp), if_neg (by simp [hc])]
  simp [hc, hfs]

theorem extractFirstParent_snd_le (path : List Char) :
    (extractFirstParent path).2 ≤ path.length := by
  cases path with
  | nil => simp [extractFirstParent]
  | cons c rest =>
    by_cases hc : c = '/'
    · subst hc
      by_cases hr : rest = []
      · subst hr
        simp [extractFirstParent]
      · cases hfs : firstSlashIdx rest with
        | some i =>
          rw [extractFirstParent_slash_some rest i hr hfs]
          have hlt := firstSlashIdx_lt _ _ hfs
          simp
          omega
        | none =>
          rw [extractFirstParent_slash_none rest hr hfs]
          simp
    · cases hfs : firstSlashIdx (c :: rest) with
      | some i =>
        rw [extractFirstParent_cons_some c rest i hc hfs]
        have hlt := firstSlashIdx_lt _ _ hfs
        exact le_of_lt hlt
      | none =>
        rw [extractFirstParent_cons_none c rest hc hfs]

theorem extractFirstParent_drop_slash (path : List Char)
    (h0 : (extractFirstParent path).2 ≠ 0)
    (hlt : (extractFirstParent path).2 < path.length) :
    path.drop (extractFirstParent path).2 =
      '/' :: path.drop ((extractFirstParent path).2 + 1) := by
  cases path with
  | nil => simp [extractFirstParent] at h0
  | cons c rest =>
    by_cases hc : c = '/'
    · subst hc
      by_cases hr : rest = []
      · subst hr
        simp [extractFirstParent] at h0
      · cases hfs : firstSlashIdx rest with
        | some i =>
          rw [extractFirstParent_slash_some rest i hr hfs]
          have hdrop := firstSlashIdx_drop _ _ hfs
          simpa using hdrop
        | none =>
          rw [extractFirstParent_slash_none rest hr hfs] at hlt
          simp at hlt
    · cases hfs : firstSlashIdx (c :: rest) with
      | some i =>
        rw [extractFirstParent_cons_some c rest i hc hfs]
        have hdrop := firstSlashIdx_drop _ _ hfs
        simpa using hdrop
      | none =>
        rw [extractFirstParent_cons_none c rest hc hfs] at hlt
        simp at hlt

/-- Replace the children map of a file node (the in-place map write of the
source). -/
def FileActivityNode.withChildren : FileActivityNode → List (List Char × FileActivityNode) → FileActivityNode
  | .mk n f g t o _, c => .mk n f g t o c

/-- Replace the file trie roots of a process node. -/
def ProcessActivityNode.withFiles : ProcessActivityNode → List (List Char × FileActivityNode) → ProcessActivityNode
  | .mk p g _ c, f => .mk p g f c

/-- enrichFromEvent completes a FileActivityNode from an event: sets the
first-seen timestamp if unset and records open metadata for open events; a
nil event leaves the node unchanged. -/
def FileActivityNode.enrichFromEvent : FileActivityNode → Option Event → FileActivityNode
  | fan, none => fan
  | .mk n f g fs o c, some ev =>
    let fs2 := if fs = 0 then ev.ResolveEventTimestamp else fs
    match ev.GetEventType with
    | .fileOpen => .mk n f g fs2 (some ⟨ev.Open.Retval, ev.Open.Flags, ev.Open.Mode⟩) c
    | _ => .mk n f g fs2 o c

/-- NewFileActivityNode returns a new FileActivityNode instance holding a
copy of the file event (when non-nil) and enriched from the event. -/
def NewFileActivityNode (fileEvent : Option FileEvent) (event : Option Event)
    (name : List Char) (generationType : NodeGenerationType) : FileActivityNode :=
  (FileActivityNode.mk name fileEvent generationType 0 none []).enrichFromEvent event

/-- InsertFileEvent on a FileActivityNode: walk or create one trie level
per path segment; an exhausted path enriches the current node and reports
no new entry. -/
def FileActivityNode.InsertFileEvent (fan : FileActivityNode) (fileEvent : FileEvent)
    (event : Option Event) (remainingPath : List Char)
    (generationType : NodeGenerationType) : FileActivityNode × Bool :=
  if h : (extractFirstParent remainingPath).2 = 0 then (fan.enrichFromEvent event, false)
  else
    match alistFind (extractFirstParent remainingPath).1 fan.Children with
    | some child =>
      let r := child.InsertFileEvent fileEvent event
        (remainingPath.drop (extractFirstParent remainingPath).2) generationType
      (fan.withChildren (alistSet (extractFirstParent remainingPath).1 r.1 fan.Children), r.2)
    | none =>
      if remainingPath.length ≤ (extractFirstParent remainingPath).2 + 1 then
        (fan.withChildren (alistSet (extractFirstParent remainingPath).1
          (NewFileActivityNode (some fileEvent) event (extractFirstParent remainingPath).1
            generationType) fan.Children), true)
      else
        let child := NewFileActivityNode none none (extractFirstParent remainingPath).1 generationType
        let r := child.InsertFileEvent fileEvent event
          (remainingPath.drop (extractFirstParent remainingPath).2) generationType
        (fan.withChildren (alistSet (extractFirstParent remainingPath).1 r.1 fan.Children), true)
termination_by remainingPath.length
decreasing_by
  all_goals
    simp only [List.length_drop]
    have h1 : remainingPath ≠ [] := fun he => h (extractFirstParent_nil_snd _ he)
    have h2 : 0 < remainingPath.length := List.length_pos.mpr h1
    omega

/-- Modelled from the spec: Event.ResolveFilePath resolves the file path of
the event and caches it on the file event (lazily-resolved derived field);
the dentry resolver is not among the embedded sources, so at this level the
resolved path is already cached in PathnameStr and the function returns
it. -/
def ResolveFilePath (_event : Option Event) (fileEvent : FileEvent) : List Char :=
  fileEvent.PathnameStr

/-- InsertFileEvent on a ProcessActivityNode: the root level of the trie
walk over the map of first path segments. -/
def ProcessActivityNode.InsertFileEvent (pan : ProcessActivityNode) (fileEvent : FileEvent)
    (event : Option Event) (generationType : NodeGenerationType) : ProcessActivityNode × Bool :=
  if (extractFirstParent (ResolveFilePath event fileEvent)).2 = 0 then (pan, false)
  else
    match alistFind (extractFirstParent (ResolveFilePath event fileEvent)).1 pan.Files with
    | some child =>
      let r := child.InsertFileEvent fileEvent event
        (fileEvent.PathnameStr.drop (extractFirstParent (ResolveFilePath event fileEvent)).2)
        generationType
      (pan.withFiles (alistSet (extractFirstParent (ResolveFilePath event fileEvent)).1
        r.1 pan.Files), r.2)
    | none =>
      if fileEvent.PathnameStr.length ≤ (extractFirstParent (ResolveFilePath event fileEvent)).2 + 1 then
        (pan.withFiles (alistSet (extractFirstParent (ResolveFilePath event fileEvent)).1
          (NewFileActivityNode (some fileEvent) event
            (extractFirstParent (ResolveFilePath event fileEvent)).1 generationType) pan.Files), true)
      else
        let child := NewFileActivityNode none none
          (extractFirstParent (ResolveFilePath event fileEvent)).1 generationType
        let r := child.InsertFileEvent fileEvent event
          (fileEvent.PathnameStr.drop (extractFirstParent (ResolveFilePath event fileEvent)).2)
          generationType
        (pan.withFiles (alistSet (extractFirstParent (ResolveFilePath event fileEvent)).1
          r.1 pan.Files), true)

theorem withChildren_Children (fan : FileActivityNode)
    (c : List (List Char × FileActivityNode)) : (fan.withChildren c).Children = c := by
  cases fan
  rfl

theorem withChildren_withChildren (fan : FileActivityNode)
    (c1 c2 : List (List Char × FileActivityNode)) :
    (fan.withChildren c1).withChildren c2 = fan.withChildren c2 := by
  cases fan
  rfl

theorem withFiles_Files (pan : ProcessActivityNode)
    (f : List (List Char × FileActivityNode)) : (pan.withFiles f).Files = f := by
  cases pan
  rfl

theorem withFiles_withFiles (pan : ProcessActivityNode)
    (f1 f2 : List (List Char × FileActivityNode)) :
    (pan.withFiles f1).withFiles f2 = pan.withFiles f2 := by
  cases pan
  rfl

theorem enrichFromEvent_idem (fan : FileActivityNode) (event : Option Event) :
    (fan.enrichFromEvent event).enrichFromEvent event = fan.enrichFromEvent event := by
  cases event with
  | none =>
    cases fan
    rfl
  | some ev =>
    cases fan with
    | mk n f g fs o c =>
      cases he : ev.GetEventType <;>
        simp only [FileActivityNode.enrichFromEvent, he] <;>
        split_ifs <;> simp_all

theorem NewFileActivityNode_enrich_fix (fileEvent : Option FileEvent)
    (event : Option Event) (name : List Char) (generationType : NodeGenerationType) :
    (NewFileActivityNode fileEvent event name generationType).enrichFromEvent event =
      NewFileActivityNode fileEvent event name generationType := by
  unfold NewFileActivityNode
  exact enrichFromEvent_idem _ _

theorem extract_drop_snd_zero (s : List Char)
    (h0 : (extractFirstParent s).2 ≠ 0)
    (hle : s.length ≤ (extractFirstParent s).2 + 1) :
    (extractFirstParent (s.drop (extractFirstParent s).2)).2 = 0 := by
  have hle2 := extractFirstParent_snd_le s
  by_cases heq : s.length ≤ (extractFirstParent s).2
  · rw [List.drop_eq_nil_of_le heq]
    simp [extractFirstParent]
  · have hlt : (extractFirstParent s).2 < s.length := by omega
    have hdrop := extractFirstParent_drop_slash s h0 hlt
    have hnil : s.drop ((extractFirstParent s).2 + 1) = [] :=
      List.drop_eq_nil_of_le (by omega)
    rw [hdrop, hnil]
    simp [extractFirstParent]

theorem InsertFileEvent_zero (fan : FileActivityNode) (fileEvent : FileEvent)
    (event : Option Event) (s : List Char) (generationType : NodeGenerationType)
    (h : (extractFirstParent s).2 = 0) :
    fan.InsertFileEvent fileEvent event s generationType =
      (fan.enrichFromEvent event, false) := by
  conv_lhs => rw [FileActivityNode.InsertFileEvent]
  rw [dif_pos h]

theorem InsertFileEvent_found (fan : FileActivityNode) (fileEvent : FileEvent)
    (event : Option Event) (s : List Char) (generationType : NodeGenerationType)
    (child : FileActivityNode) (h : ¬ (extractFirstParent s).2 = 0)
    (hfind : alistFind (extractFirstParent s).1 fan.Children = some child) :
    fan.InsertFileEvent fileEvent event s generationType =
      (fan.withChildren (alistSet (extractFirstParent s).1
        (child.InsertFileEvent fileEvent event (s.drop (extractFirstParent s).2)
          generationType).1 fan.Children),
       (child.InsertFileEvent fileEvent event (s.drop (extractFirstParent s).2)
          generationType).2) := by
  conv_lhs => rw [FileActivityNode.InsertFileEvent]
  simp only [dif_neg h, hfind]

theorem InsertFileEvent_new_terminal (fan : FileActivityNode) (fileEvent : FileEvent)
    (event : Option Event) (s : List Char) (generationType : NodeGenerationType)
    (h : ¬ (extractFirstParent s).2 = 0)
    (hfind : alistFind (extractFirstParent s).1 fan.Children = none)
    (hlen : s.length ≤ (extractFirstParent s).2 + 1) :
    fan.InsertFileEvent fileEvent event s generationType =
      (fan.withChildren (alistSet (extractFirstParent s).1
        (NewFileActivityNode (some fileEvent) event (extractFirstParent s).1
          generationType) fan.Children), true) := by
  conv_lhs => rw [FileActivityNode.InsertFileEvent]
  simp only [dif_neg h, hfind, if_pos hlen]

theorem InsertFileEvent_new_inner (fan : FileActivityNode) (fileEvent : FileEvent)
    (event : Option Event) (s : List Char) (generationType : NodeGenerationType)
    (h : ¬ (extractFirstParent s).2 = 0)
    (hfind : alistFind (extractFirstParent s).1 fan.Children = none)
    (hlen : ¬ s.length ≤ (extractFirstParent s).2 + 1) :
    fan.InsertFileEvent fileEvent event s generationType =
      (fan.withChildren (alistSet (extractFirstParent s).1
        ((NewFileActivityNode none none (extractFirstParent s).1 generationType).InsertFileEvent
          fileEvent event (s.drop (extractFirstParent s).2) generationType).1
        fan.Children), true) := by
  conv_lhs => rw [FileActivityNode.InsertFileEvent]
  simp only [dif_neg h, hfind, if_neg hlen]

theorem InsertFileEvent_insert_twice (s : List Char) (fan : FileActivityNode)
    (fileEvent : FileEvent) (event : Option Event)
    (generationType : NodeGenerationType) :
    (fan.InsertFileEvent fileEvent event s generationType).1.InsertFileEvent
      fileEvent event s generationType
      = ((fan.InsertFileEvent fileEvent event s generationType).1, false) := by
  by_cases h : (extractFirstParent s).2 = 0
  · rw [InsertFileEvent_zero fan fileEvent event s generationType h]
    rw [InsertFileEvent_zero _ fileEvent event s generationType h, enrichFromEvent_idem]
  · cases hfind : alistFind (extractFirstParent s).1 fan.Children with
    | some child =>
      rw [InsertFileEvent_found fan fileEvent event s generationType child h hfind]
      have hfind2 : alistFind (extractFirstParent s).1
          ((fan.withChildren (alistSet (extractFirstParent s).1
            (child.InsertFileEvent fileEvent event (s.drop (extractFirstParent s).2)
              generationType).1 fan.Children)).Children)
          = some (child.InsertFileEvent fileEvent event (s.drop (extractFirstParent s).2)
              generationType).1 := by
        rw [withChildren_Children]
        exact alistFind_set_same _ _ _
      rw [InsertFileEvent_found _ fileEvent event s generationType _ h hfind2]
      rw [InsertFileEvent_insert_twice (s.drop (extractFirstParent s).2) child
        fileEvent event generationType]
      rw [withChildren_Children, alistSet_set_same, withChildren_withChildren]
    | none =>
      by_cases hlen : s.length ≤ (extractFirstParent s).2 + 1
      · rw [InsertFileEvent_new_terminal fan fileEvent event s generationType h hfind hlen]
        have hfind2 : alistFind (extractFirstParent s).1
            ((fan.withChildren (alistSet (extractFirstParent s).1
              (NewFileActivityNode (some fileEvent) event (extractFirstParent s).1
                generationType) fan.Children)).Children)
            = some (NewFileActivityNode (some fileEvent) event (extractFirstParent s).1
                generationType) := by
          rw [withChildren_Children]
          exact alistFind_set_same _ _ _
        rw [InsertFileEvent_found _ fileEvent event s generationType _ h hfind2]
        rw [InsertFileEvent_zero _ fileEvent event _ generationType
          (extract_drop_snd_zero s h hlen)]
        rw [NewFileActivityNode_enrich_fix]
        rw [withChildren_Children, alistSet_set_same, withChildren_withChildren]
      · rw [InsertFileEvent_new_inner fan fileEvent event s generationType h hfind hlen]
        have hfind2 : alistFind (extractFirstParent s).1
            ((fan.withChildren (alistSet (extractFirstParent s).1
              ((NewFileActivityNode none none (extractFirstParent s).1
                generationType).InsertFileEvent fileEvent event
                  (s.drop (extractFirstParent s).2) generationType).1
              fan.Children)).Children)
            = some ((NewFileActivityNode none none (extractFirstParent s).1
                generationType).InsertFileEvent fileEvent event
                  (s.drop (extractFirstParent s).2) generationType).1 := by
          rw [withChildren_Children]
          exact alistFind_set_same _ _ _
        rw [InsertFileEvent_found _ fileEvent event s generationType _ h hfind2]
        rw [InsertFileEvent_insert_twice (s.drop (extractFirstParent s).2)
          (NewFileActivityNode none none (extractFirstParent s).1 generationType)
          fileEvent event generationType]
        rw [withChildren_Children, alistSet_set_same, withChildren_withChildren]
termination_by s.length
decreasing_by
  all_goals
    simp only [List.length_drop]
    have h1 : s ≠ [] := fun he => h (extractFirstParent_nil_snd _ he)
    have h2 : 0 < s.length := List.length_pos.mpr h1
    omega

theorem panInsert_zero (pan : ProcessActivityNode) (fileEvent : FileEvent)
    (event : Option Event) (generationType : NodeGenerationType)
    (h : (extractFirstParent fileEvent.PathnameStr).2 = 0) :
    pan.InsertFileEvent fileEvent event generationType = (pan, false) := by
  conv_lhs => rw [ProcessActivityNode.InsertFileEvent]
  simp only [ResolveFilePath]
  rw [if_pos h]

theorem panInsert_found (pan : ProcessActivityNode) (fileEvent : FileEvent)
    (event : Option Event) (generationType : NodeGenerationType)
    (child : FileActivityNode)
    (h : ¬ (extractFirstParent fileEvent.PathnameStr).2 = 0)
    (hfind : alistFind (extractFirstParent fileEvent.PathnameStr).1 pan.Files = some child) :
    pan.InsertFileEvent fileEvent event generationType =
      (pan.withFiles (alistSet (extractFirstParent fileEvent.PathnameStr).1
        (child.InsertFileEvent fileEvent event
          (fileEvent.PathnameStr.drop (extractFirstParent fileEvent.PathnameStr).2)
          generationType).1 pan.Files),
       (child.InsertFileEvent fileEvent event
          (fileEvent.PathnameStr.drop (extractFirstParent fileEvent.PathnameStr).2)
          generationType).2) := by
  conv_lhs => rw [ProcessActivityNode.InsertFileEvent]
  simp only [ResolveFilePath, if_neg h, hfind]

theorem panInsert_new_terminal (pan : ProcessActivityNode) (fileEvent : FileEvent)
    (event : Option Event) (generationType : NodeGenerationType)
    (h : ¬ (extractFirstParent fileEvent.PathnameStr).2 = 0)
    (hfind : alistFind (extractFirstParent fileEvent.PathnameStr).1 pan.Files = none)
    (hlen : fileEvent.PathnameStr.length ≤ (extractFirstParent fileEvent.PathnameStr).2 + 1) :
    pan.InsertFileEvent fileEvent event generationType =
      (pan.withFiles (alistSet (extractFirstParent fileEvent.PathnameStr).1
        (NewFileActivityNode (some fileEvent) event
          (extractFirstParent fileEvent.PathnameStr).1 generationType) pan.Files), true) := by
  conv_lhs => rw [ProcessActivityNode.InsertFileEvent]
  simp only [ResolveFilePath, if_neg h, hfind, if_pos hlen]

theorem panInsert_new_inner (pan : ProcessActivityNode) (fileEvent : FileEvent)
    (event : Option Event) (generationType : NodeGenerationType)
    (h : ¬ (extractFirstParent fileEvent.PathnameStr).2 = 0)
    (hfind : alistFind (extractFirstParent fileEvent.PathnameStr).1 pan.Files = none)
    (hlen : ¬ fileEvent.PathnameStr.length ≤ (extractFirstParent fileEvent.PathnameStr).2 + 1) :
    pan.InsertFileEvent fileEvent event generationType =
      (pan.withFiles (alistSet (extractFirstParent fileEvent.PathnameStr).1
        ((NewFileActivityNode none none (extractFirstParent fileEvent.PathnameStr).1
          generationType).InsertFileEvent fileEvent event
            (fileEvent.PathnameStr.drop (extractFirstParent fileEvent.PathnameStr).2)
            generationType).1 pan.Files), true) := by
  conv_lhs => rw [ProcessActivityNode.InsertFileEvent]
  simp only [ResolveFilePath, if_neg h, hfind, if_neg hlen]

end Probe

/-- C4: file-trie insertion is idempotent under duplicate opens: for every
ProcessActivityNode and every file event (in particular every absolute
path), inserting the event a second time via InsertFileEvent leaves the
trie exactly as after the first insertion (one terminal FileActivityNode,
never two; the repeated enrichment of the terminal node is the identity)
and the second insertion returns false. -/
theorem C4_InsertFileEvent_idempotent (pan : Probe.ProcessActivityNode)
    (fileEvent : Probe.FileEvent) (event : Option Probe.Event)
    (generationType : Probe.NodeGenerationType) :
    (pan.InsertFileEvent fileEvent event generationType).1.InsertFileEvent
      fileEvent event generationType
      = ((pan.InsertFileEvent fileEvent event generationType).1, false) := by
  by_cases h : (Probe.extractFirstParent fileEvent.PathnameStr).2 = 0
  · rw [Probe.panInsert_zero pan fileEvent event generationType h]
    rw [Probe.panInsert_zero _ fileEvent event generationType h]
  · cases hfind : Probe.alistFind (Probe.extractFirstParent fileEvent.PathnameStr).1 pan.Files with
    | some child =>
      rw [Probe.panInsert_found pan fileEvent event generationType child h hfind]
      have hfind2 : Probe.alistFind (Probe.extractFirstParent fileEvent.PathnameStr).1
          ((pan.withFiles (Probe.alistSet (Probe.extractFirstParent fileEvent.PathnameStr).1
            (child.InsertFileEvent fileEvent event
              (fileEvent.PathnameStr.drop (Probe.extractFirstParent fileEvent.PathnameStr).2)
              generationType).1 pan.Files)).Files)
          = some (child.InsertFileEvent fileEvent event
              (fileEvent.PathnameStr.drop (Probe.extractFirstParent fileEvent.PathnameStr).2)
              generationType).1 := by
        rw [Probe.withFiles_Files]
        exact Probe.alistFind_set_same _ _ _
      rw [Probe.panInsert_found _ fileEvent event generationType _ h hfind2]
      rw [Probe.InsertFileEvent_insert_twice
        (fileEvent.PathnameStr.drop (Probe.extractFirstParent fileEvent.PathnameStr).2)
        child fileEvent event generationType]
      rw [Probe.withFiles_Files, Probe.alistSet_set_same, Probe.withFiles_withFiles]
    | none =>
      by_cases hlen : fileEvent.PathnameStr.length ≤
          (Probe.extractFirstParent fileEvent.PathnameStr).2 + 1
      · rw [Probe.panInsert_new_terminal pan fileEvent event generationType h hfind hlen]
        have hfind2 : Probe.alistFind (Probe.extractFirstParent fileEvent.PathnameStr).1
            ((pan.withFiles (Probe.alistSet (Probe.extractFirstParent fileEvent.PathnameStr).1
              (Probe.NewFileActivityNode (some fileEvent) event
                (Probe.extractFirstParent fileEvent.PathnameStr).1 generationType)
              pan.Files)).Files)
            = some (Probe.NewFileActivityNode (some fileEvent) event
                (Probe.extractFirstParent fileEvent.PathnameStr).1 generationType) := by
          rw [Probe.withFiles_Files]
          exact Probe.alistFind_set_same _ _ _
        rw [Probe.panInsert_found _ fileEvent event generationType _ h hfind2]
        rw [Probe.InsertFileEvent_zero _ fileEvent event _ generationType
          (Probe.extract_drop_snd_zero fileEvent.PathnameStr h hlen)]
        rw [Probe.NewFileActivityNode_enrich_fix]
        rw [Probe.withFiles_Files, Probe.alistSet_set_same, Probe.withFiles_withFiles]
      · rw [Probe.panInsert_new_inner pan fileEvent event generationType h hfind hlen]
        have hfind2 : Probe.alistFind (Probe.extractFirstParent fileEvent.PathnameStr).1
            ((pan.withFiles (Probe.alistSet (Probe.extractFirstParent fileEvent.PathnameStr).1
              ((Probe.NewFileActivityNode none none
                (Probe.extractFirstParent fileEvent.PathnameStr).1
                generationType).InsertFileEvent fileEvent event
                  (fileEvent.PathnameStr.drop (Probe.extractFirstParent fileEvent.PathnameStr).2)
                  generationType).1 pan.Files)).Files)
            = some ((Probe.NewFileActivityNode none none
                (Probe.extractFirstParent fileEvent.PathnameStr).1
                generationType).InsertFileEvent fileEvent event
                  (fileEvent.PathnameStr.drop (Probe.extractFirstParent fileEvent.PathnameStr).2)
                  generationType).1 := by
          rw [Probe.withFiles_Files]
          exact Probe.alistFind_set_same _ _ _
        rw [Probe.panInsert_found _ fileEvent event generationType _ h hfind2]
        rw [Probe.InsertFileEvent_insert_twice
          (fileEvent.PathnameStr.drop (Probe.extractFirstParent fileEvent.PathnameStr).2)
          (Probe.NewFileActivityNode none none
            (Probe.extractFirstParent fileEvent.PathnameStr).1 generationType)
          fileEvent event generationType]
        rw [Probe.withFiles_Files, Probe.alistSet_set_same, Probe.withFiles_withFiles]

namespace Probe

/-- Replace the child list of a process node. -/
def ProcessActivityNode.withChildNodes : ProcessActivityNode → List ProcessActivityNode → ProcessActivityNode
  | .mk p g f _, c => .mk p g f c

/-- NewProcessActivityNode returns a new ProcessActivityNode instance for
the entry (the random node id and the args-envs reference retain of the
source are not modelled: neither affects the tree shape). -/
def NewProcessActivityNode (entry : ProcessCacheEntry)
    (generationType : NodeGenerationType) : ProcessActivityNode :=
  .mk entry.process generationType [] []

/-- Node addressed by a path of child indices in a forest: first index
into the root list, then successive Children indices. -/
def findNode : List Nat → List ProcessActivityNode → Option ProcessActivityNode
  | [], _ => none
  | [i], forest => forest[i]?
  | i :: rest, forest =>
    match forest[i]? with
    | none => none
    | some n => findNode rest n.Children

/-- Children of the node at the path (empty for an unaddressed path; the
paths stored by the dump always address existing nodes). -/
def childrenAt (forest : List ProcessActivityNode) (p : List Nat) : List ProcessActivityNode :=
  match findNode p forest with
  | none => []
  | some n => n.Children

/-- Append a child to the node at the path (the in-place append of the
source; an unaddressed path leaves the forest unchanged). -/
def addChildAt : List Nat → List ProcessActivityNode → ProcessActivityNode → List ProcessActivityNode
  | [], forest, _ => forest
  | [i], forest, c =>
    match forest[i]? with
    | none => forest
    | some n => forest.set i (n.withChildNodes (n.Children ++ [c]))
  | i :: rest, forest, c =>
    match forest[i]? with
    | none => forest
    | some n => forest.set i (n.withChildNodes (addChildAt rest n.Children c))

/-- Cookie-shortcut insertion performed after a node is created for the
entry. -/
def ActivityDump.insertCookieShortcut (ad : ActivityDump) (entry : ProcessCacheEntry)
    (path : List Nat) : ActivityDump :=
  if 0 < entry.process.Cookie then
    { ad with CookiesNode := alistSet entry.process.Cookie path ad.CookiesNode }
  else ad

/-- FindOrCreateProcessActivityNode finds or creates a process activity
node for the entry and returns the updated dump together with the path of
the node (none when the entry cannot be attached).  It follows the source:
cookie-index fast path; recursive resolution of the nearest exec ancestor
with generation type Snapshot; when a parent node was resolved, find a
matching child or append a new one unconditionally; when no parent was
resolved, return nil unless the entry matches the dump selector, else find
a matching root or append a new root; newly created nodes register their
cookie shortcut (the per-event counters and the traced-pid timeout update
of the source touch only metrics and a kernel map and are not modelled). -/
def ActivityDump.FindOrCreateProcessActivityNode (ad : ActivityDump) :
    Option ProcessCacheEntry → NodeGenerationType → ActivityDump × Option (List Nat)
  | none, _ => (ad, none)
  | some e, generationType =>
    match (if 0 < e.process.Cookie then alistFind e.process.Cookie ad.CookiesNode else none) with
    | some p => (ad, some p)
    | none =>
      let r := ad.FindOrCreateProcessActivityNode e.GetNextAncestorNoFork .Snapshot
      match r.2 with
      | none =>
        if !(r.1.Matches (some e)) then (r.1, none)
        else
          match List.findIdx? (fun root => root.Matches e r.1.DifferentiateArgs)
              r.1.ProcessActivityTree with
          | some i => (r.1, some [i])
          | none =>
            (ActivityDump.insertCookieShortcut
              { r.1 with ProcessActivityTree :=
                  r.1.ProcessActivityTree ++ [NewProcessActivityNode e generationType] }
              e [r.1.ProcessActivityTree.length],
             some [r.1.ProcessActivityTree.length])
      | some pp =>
        match List.findIdx? (fun child => child.Matches e r.1.DifferentiateArgs)
            (childrenAt r.1.ProcessActivityTree pp) with
        | some i => (r.1, some (pp ++ [i]))
        | none =>
          (ActivityDump.insertCookieShortcut
            { r.1 with ProcessActivityTree :=
                addChildAt pp r.1.ProcessActivityTree (NewProcessActivityNode e generationType) }
            e (pp ++ [(childrenAt r.1.ProcessActivityTree pp).length]),
           some (pp ++ [(childrenAt r.1.ProcessActivityTree pp).length]))
termination_by entry _ => sizeOf entry
decreasing_by
  cases e
  simp [ProcessCacheEntry.GetNextAncestorNoFork]
  omega

theorem findOrCreate_nil (ad : ActivityDump) (g : NodeGenerationType) :
    ad.FindOrCreateProcessActivityNode none g = (ad, none) := by
  rw [ActivityDump.FindOrCreateProcessActivityNode]

theorem findOrCreate_cookie_hit (ad : ActivityDump) (e : ProcessCacheEntry)
    (g : NodeGenerationType) (p : List Nat)
    (hck : (if 0 < e.process.Cookie then alistFind e.process.Cookie ad.CookiesNode else none)
      = some p) :
    ad.FindOrCreateProcessActivityNode (some e) g = (ad, some p) := by
  conv_lhs => rw [ActivityDump.FindOrCreateProcessActivityNode]
  simp only [hck]

theorem findOrCreate_parent_none_nomatch (ad : ActivityDump) (e : ProcessCacheEntry)
    (g : NodeGenerationType)
    (hmiss : (if 0 < e.process.Cookie then alistFind e.process.Cookie ad.CookiesNode else none)
      = none)
    (hpp : (ad.FindOrCreateProcessActivityNode e.GetNextAncestorNoFork .Snapshot).2 = none)
    (hm : (ad.FindOrCreateProcessActivityNode e.GetNextAncestorNoFork .Snapshot).1.Matches
      (some e) = false) :
    ad.FindOrCreateProcessActivityNode (some e) g =
      ((ad.FindOrCreateProcessActivityNode e.GetNextAncestorNoFork .Snapshot).1, none) := by
  conv_lhs => rw [ActivityDump.FindOrCreateProcessActivityNode]
  simp only [hmiss, hpp, hm]
  rfl

theorem findOrCreate_parent_none_root_found (ad : ActivityDump) (e : ProcessCacheEntry)
    (g : NodeGenerationType) (i : Nat)
    (hmiss : (if 0 < e.process.Cookie then alistFind e.process.Cookie ad.CookiesNode else none)
      = none)
    (hpp : (ad.FindOrCreateProcessActivityNode e.GetNextAncestorNoFork .Snapshot).2 = none)
    (hm : (ad.FindOrCreateProcessActivityNode e.GetNextAncestorNoFork .Snapshot).1.Matches
      (some e) = true)
    (hidx : List.findIdx? (fun root => root.Matches e
        (ad.FindOrCreateProcessActivityNode e.GetNextAncestorNoFork .Snapshot).1.DifferentiateArgs)
        (ad.FindOrCreateProcessActivityNode e.GetNextAncestorNoFork .Snapshot).1.ProcessActivityTree
      = some i) :
    ad.FindOrCreateProcessActivityNode (some e) g =
      ((ad.FindOrCreateProcessActivityNode e.GetNextAncestorNoFork .Snapshot).1, some [i]) := by
  conv_lhs => rw [ActivityDump.FindOrCreateProcessActivityNode]
  simp only [hmiss, hpp, hm, hidx]
  rfl

theorem findOrCreate_parent_none_root_new (ad : ActivityDump) (e : ProcessCacheEntry)
    (g : NodeGenerationType)
    (hmiss : (if 0 < e.process.Cookie then alistFind e.process.Cookie ad.CookiesNode else none)
      = none)
    (hpp : (ad.FindOrCreateProcessActivityNode e.GetNextAncestorNoFork .Snapshot).2 = none)
    (hm : (ad.FindOrCreateProcessActivityNode e.GetNextAncestorNoFork .Snapshot).1.Matches
      (some e) = true)
    (hidx : List.findIdx? (fun root => root.Matches e
        (ad.FindOrCreateProcessActivityNode e.GetNextAncestorNoFork .Snapshot).1.DifferentiateArgs)
        (ad.FindOrCreateProcessActivityNode e.GetNextAncestorNoFork .Snapshot).1.ProcessActivityTree
      = none) :
    ad.FindOrCreateProcessActivityNode (some e) g =
      (ActivityDump.insertCookieShortcut
        { (ad.FindOrCreateProcessActivityNode e.GetNextAncestorNoFork .Snapshot).1 with
            ProcessActivityTree :=
              (ad.FindOrCreateProcessActivityNode e.GetNextAncestorNoFork
                .Snapshot).1.ProcessActivityTree ++ [NewProcessActivityNode e g] }
        e [(ad.FindOrCreateProcessActivityNode e.GetNextAncestorNoFork
            .Snapshot).1.ProcessActivityTree.length],
       some [(ad.FindOrCreateProcessActivityNode e.GetNextAncestorNoFork
            .Snapshot).1.ProcessActivityTree.length]) := by
  conv_lhs => rw [ActivityDump.FindOrCreateProcessActivityNode]
  simp only [hmiss, hpp, hm, hidx]
  rfl

theorem findOrCreate_parent_some_child_found (ad : ActivityDump) (e : ProcessCacheEntry)
    (g : NodeGenerationType) (pp : List Nat) (i : Nat)
    (hmiss : (if 0 < e.process.Cookie then alistFind e.process.Cookie ad.CookiesNode else none)
      = none)
    (hpp : (ad.FindOrCreateProcessActivityNode e.GetNextAncestorNoFork .Snapshot).2 = some pp)
    (hidx : List.findIdx? (fun child => child.Matches e
        (ad.FindOrCreateProcessActivityNode e.GetNextAncestorNoFork .Snapshot).1.DifferentiateArgs)
        (childrenAt (ad.FindOrCreateProcessActivityNode e.GetNextAncestorNoFork
          .Snapshot).1.ProcessActivityTree pp)
      = some i) :
    ad.FindOrCreateProcessActivityNode (some e) g =
      ((ad.FindOrCreateProcessActivityNode e.GetNextAncestorNoFork .Snapshot).1,
        some (pp ++ [i])) := by
  conv_lhs => rw [ActivityDump.FindOrCreateProcessActivityNode]
  simp only [hmiss, hpp, hidx]

theorem findOrCreate_parent_some_child_new (ad : ActivityDump) (e : ProcessCacheEntry)
    (g : NodeGenerationType) (pp : List Nat)
    (hmiss : (if 0 < e.process.Cookie then alistFind e.process.Cookie ad.CookiesNode else none)
      = none)
    (hpp : (ad.FindOrCreateProcessActivityNode e.GetNextAncestorNoFork .Snapshot).2 = some pp)
    (hidx : List.findIdx? (fun child => child.Matches e
        (ad.FindOrCreateProcessActivityNode e.GetNextAncestorNoFork .Snapshot).1.DifferentiateArgs)
        (childrenAt (ad.FindOrCreateProcessActivityNode e.GetNextAncestorNoFork
          .Snapshot).1.ProcessActivityTree pp)
      = none) :
    ad.FindOrCreateProcessActivityNode (some e) g =
      (ActivityDump.insertCookieShortcut
        { (ad.FindOrCreateProcessActivityNode e.GetNextAncestorNoFork .Snapshot).1 with
            ProcessActivityTree :=
              addChildAt pp (ad.FindOrCreateProcessActivityNode e.GetNextAncestorNoFork
                .Snapshot).1.ProcessActivityTree (NewProcessActivityNode e g) }
        e (pp ++ [(childrenAt (ad.FindOrCreateProcessActivityNode e.GetNextAncestorNoFork
            .Snapshot).1.ProcessActivityTree pp).length]),
       some (pp ++ [(childrenAt (ad.FindOrCreateProcessActivityNode e.GetNextAncestorNoFork
            .Snapshot).1.ProcessActivityTree pp).length])) := by
  conv_lhs => rw [ActivityDump.FindOrCreateProcessActivityNode]
  simp only [hmiss, hpp, hidx]

theorem findOrCreate_none_unchanged (entry : Option ProcessCacheEntry)
    (ad : ActivityDump) (g : NodeGenerationType)
    (h : (ad.FindOrCreateProcessActivityNode entry g).2 = none) :
    (ad.FindOrCreateProcessActivityNode entry g).1 = ad := by
  match entry with
  | none => rw [findOrCreate_nil]
  | some e =>
    by_cases hck : (if 0 < e.process.Cookie then
        alistFind e.process.Cookie ad.CookiesNode else none) = none
    · cases hpp : (ad.FindOrCreateProcessActivityNode e.GetNextAncestorNoFork .Snapshot).2 with
      | some pp =>
        cases hidx : List.findIdx? (fun child => child.Matches e
            (ad.FindOrCreateProcessActivityNode e.GetNextAncestorNoFork
              .Snapshot).1.DifferentiateArgs)
            (childrenAt (ad.FindOrCreateProcessActivityNode e.GetNextAncestorNoFork
              .Snapshot).1.ProcessActivityTree pp) with
        | some i =>
          rw [findOrCreate_parent_some_child_found ad e g pp i hck hpp hidx] at h
          simp at h
        | none =>
          rw [findOrCreate_parent_some_child_new ad e g pp hck hpp hidx] at h
          simp at h
      | none =>
        cases hm : (ad.FindOrCreateProcessActivityNode e.GetNextAncestorNoFork
            .Snapshot).1.Matches (some e) with
        | false =>
          rw [findOrCreate_parent_none_nomatch ad e g hck hpp hm]
          exact findOrCreate_none_unchanged e.GetNextAncestorNoFork ad .Snapshot hpp
        | true =>
          cases hidx : List.findIdx? (fun root => root.Matches e
              (ad.FindOrCreateProcessActivityNode e.GetNextAncestorNoFork
                .Snapshot).1.DifferentiateArgs)
              (ad.FindOrCreateProcessActivityNode e.GetNextAncestorNoFork
                .Snapshot).1.ProcessActivityTree with
          | some i =>
            rw [findOrCreate_parent_none_root_found ad e g i hck hpp hm hidx] at h
            simp at h
          | none =>
            rw [findOrCreate_parent_none_root_new ad e g hck hpp hm hidx] at h
            simp at h
    · obtain ⟨p, hp⟩ : ∃ p, (if 0 < e.process.Cookie then
          alistFind e.process.Cookie ad.CookiesNode else none) = some p := by
        cases hv : (if 0 < e.process.Cookie then
            alistFind e.process.Cookie ad.CookiesNode else none) with
        | none => exact absurd hv hck
        | some p => exact ⟨p, rfl⟩
      rw [findOrCreate_cookie_hit ad e g p hp] at h
      simp at h
termination_by sizeOf entry
decreasing_by
  cases e
  simp [ProcessCacheEntry.GetNextAncestorNoFork]
  omega

end Probe

/-- C1: for a call to FindOrCreateProcessActivityNode on a non-nil entry
whose own cookie shortcut misses (the fast path that returns the node of an
entry already inserted in the tree): if the recursive resolution of the
entry's nearest exec ancestor yields a parent node, the entry is attached
as (or found among) the children of that parent node unconditionally,
regardless of whether the entry matches the dump selector; if the ancestor
resolves to no node, the entry is attached at (or found among) the roots
exactly when it matches the dump selector, and otherwise nil is returned
with the dump unchanged. -/
theorem C1_find_or_create_attach (ad : Probe.ActivityDump)
    (e : Probe.ProcessCacheEntry) (g : Probe.NodeGenerationType)
    (hmiss : (if 0 < e.process.Cookie then
      Probe.alistFind e.process.Cookie ad.CookiesNode else none) = none) :
    (∀ pp : List Nat,
      (ad.FindOrCreateProcessActivityNode e.GetNextAncestorNoFork .Snapshot).2 = some pp →
      ∃ i, (ad.FindOrCreateProcessActivityNode (some e) g).2 = some (pp ++ [i])) ∧
    ((ad.FindOrCreateProcessActivityNode e.GetNextAncestorNoFork .Snapshot).2 = none →
      (ad.Matches (some e) = true →
        ∃ i, (ad.FindOrCreateProcessActivityNode (some e) g).2 = some [i]) ∧
      (ad.Matches (some e) = false →
        ad.FindOrCreateProcessActivityNode (some e) g = (ad, none))) := by
  constructor
  · intro pp hpp
    cases hidx : List.findIdx? (fun child => child.Matches e
        (ad.FindOrCreateProcessActivityNode e.GetNextAncestorNoFork
          .Snapshot).1.DifferentiateArgs)
        (Probe.childrenAt (ad.FindOrCreateProcessActivityNode e.GetNextAncestorNoFork
          .Snapshot).1.ProcessActivityTree pp) with
    | some i =>
      exact ⟨i, by
        rw [Probe.findOrCreate_parent_some_child_found ad e g pp i hmiss hpp hidx]⟩
    | none =>
      exact ⟨(Probe.childrenAt (ad.FindOrCreateProcessActivityNode e.GetNextAncestorNoFork
          .Snapshot).1.ProcessActivityTree pp).length, by
        rw [Probe.findOrCreate_parent_some_child_new ad e g pp hmiss hpp hidx]⟩
  · intro hpp
    have hunch : (ad.FindOrCreateProcessActivityNode e.GetNextAncestorNoFork .Snapshot).1 = ad :=
      Probe.findOrCreate_none_unchanged _ ad .Snapshot hpp
    constructor
    · intro hm
      have hm2 : (ad.FindOrCreateProcessActivityNode e.GetNextAncestorNoFork
          .Snapshot).1.Matches (some e) = true := by
        rw [hunch]
        exact hm
      cases hidx : List.findIdx? (fun root => root.Matches e
          (ad.FindOrCreateProcessActivityNode e.GetNextAncestorNoFork
            .Snapshot).1.DifferentiateArgs)
          (ad.FindOrCreateProcessActivityNode e.GetNextAncestorNoFork
            .Snapshot).1.ProcessActivityTree with
      | some i =>
        exact ⟨i, by
          rw [Probe.findOrCreate_parent_none_root_found ad e g i hmiss hpp hm2 hidx]⟩
      | none =>
        exact ⟨(ad.FindOrCreateProcessActivityNode e.GetNextAncestorNoFork
            .Snapshot).1.ProcessActivityTree.length, by
          rw [Probe.findOrCreate_parent_none_root_new ad e g hmiss hpp hm2 hidx]⟩
    · intro hm
      have hm2 : (ad.FindOrCreateProcessActivityNode e.GetNextAncestorNoFork
          .Snapshot).1.Matches (some e) = false := by
        rw [hunch]
        exact hm
      rw [Probe.findOrCreate_parent_none_nomatch ad e g hmiss hpp hm2, hunch]

namespace Probe

/-- Concrete empty dump for the C1 witness. -/
def c1Ad : ActivityDump := ActivityDump.mk [] [] false "" ""

/-- Concrete ancestor-less entry with cookie 0 for the C1 witness. -/
def c1Entry : ProcessCacheEntry :=
  ProcessCacheEntry.mk
    { Pid := 100, Comm := "ls", PathnameStr := "/bin/ls", ContainerID := ""
      Cookie := 0
      Credentials := ⟨0, 0, "", "", 0, 0, "", "", 0, 0, "", "", 0, 0⟩
      Argv := [] } none

end Probe

/-- Witness for C1 at a concrete empty dump and ancestor-less entry. -/
theorem C1_find_or_create_attach_witness :
    ((if 0 < Probe.c1Entry.process.Cookie then
        Probe.alistFind Probe.c1Entry.process.Cookie Probe.c1Ad.CookiesNode else none) = none) ∧
    ((∀ pp : List Nat,
        (Probe.c1Ad.FindOrCreateProcessActivityNode Probe.c1Entry.GetNextAncestorNoFork
          .Snapshot).2 = some pp →
        ∃ i, (Probe.c1Ad.FindOrCreateProcessActivityNode (some Probe.c1Entry) .Runtime).2 =
          some (pp ++ [i])) ∧
      ((Probe.c1Ad.FindOrCreateProcessActivityNode Probe.c1Entry.GetNextAncestorNoFork
          .Snapshot).2 = none →
        (Probe.c1Ad.Matches (some Probe.c1Entry) = true →
          ∃ i, (Probe.c1Ad.FindOrCreateProcessActivityNode (some Probe.c1Entry) .Runtime).2 =
            some [i]) ∧
        (Probe.c1Ad.Matches (some Probe.c1Entry) = false →
          Probe.c1Ad.FindOrCreateProcessActivityNode (some Probe.c1Entry) .Runtime =
            (Probe.c1Ad, none)))) :=
  ⟨rfl, C1_find_or_create_attach Probe.c1Ad Probe.c1Entry .Runtime rfl⟩

namespace Probe

/-- Discarder-flush facet of the probe state: the userspace atomic
flushingDiscarders flag, the kernel-side flushing_discarders map value,
and the keys of the two discarder tables. -/
structure ProbeFlushState where
  flushingDiscarders : Bool
  flushingMapValue : Nat
  inodeDiscarders : List (Nat × Nat)
  pidDiscarders : List Nat
deriving DecidableEq, Repr

/-- Deferred step of FlushDiscarders: store 0 to the userspace flag and
reset the kernel-side flushing map value. -/
def unfreezeDiscarders (p : ProbeFlushState) : ProbeFlushState :=
  { p with flushingDiscarders := false, flushingMapValue := 0 }

/-- FlushDiscarders: set the kernel flushing map, register the deferred
unfreeze, compare-and-swap the userspace flag (failing fast with the
already-flushing error when it is set), then enumerate both discarder
tables and delete every enumerated key.  The sleeps pacing the deletions
across the configured window only spread the same deletions over time, and
kernel map writes are modelled as succeeding; both elisions are irrelevant
to the flag and error behaviour.  Returns the new state and an error when
a flush was already in progress. -/
def FlushDiscarders (p : ProbeFlushState) : ProbeFlushState × Option String :=
  let p1 := { p with flushingMapValue := 1 }
  if p1.flushingDiscarders then
    (unfreezeDiscarders p1, some ("already flushing discarders"))
  else
    let p2 := { p1 with flushingDiscarders := true }
    if p2.inodeDiscarders.length + p2.pidDiscarders.length = 0 then
      (unfreezeDiscarders p2, none)
    else
      (unfreezeDiscarders { p2 with inodeDiscarders := [], pidDiscarders := [] }, none)

/-- Caches touched (or deliberately not touched) by dentry invalidation:
the dentry path cache keyed by (mount id, inode), and the mount cache,
which dentry invalidation must leave alone. -/
structure ProbeCaches where
  dentryCache : List ((Nat × Nat) × String)
  mountCache : List (Nat × String)
deriving DecidableEq, Repr

/-- Modelled from the spec: DentryResolver.DelCacheEntry (the dentry
resolver is not among the embedded sources) removes the cached path of the
(mount id, inode) pair from the dentry cache. -/
def DelCacheEntry (st : ProbeCaches) (mountID : Nat) (inode : Nat) : ProbeCaches :=
  { st with dentryCache := st.dentryCache.filter (fun kv => !(kv.1 == (mountID, inode))) }

/-- invalidateDentry: sanity-check the (mount id, inode) pair; an invalid
pair (either component 0) is logged and the operation is a no-op, otherwise
the dentry cache entry is removed. -/
def invalidateDentry (st : ProbeCaches) (mountID : Nat) (inode : Nat) : ProbeCaches :=
  if mountID == 0 || inode == 0 then st
  else DelCacheEntry st mountID inode

end Probe

namespace Probe

/-- Calls performed by Probe.handleEvent, in program order; deferred calls
appear at function return, after dispatch. -/
inductive Action where
  | countEvent
  | decodePayload
  | decodeContexts
  | delCacheEntries (mountID : Nat)
  | setRevision (mountID : Nat)
  | mountDelete (mountID : Nat)
  | invalidateDentryCall (mountID : Nat) (inode : Nat)
  | updateArgsEnvs
  | setMountPoint
  | setMountRoot
  | mountInsert (mountID : Nat)
  | applyBootTime
  | addForkEntry
  | resolveNewProcessCacheEntryContext
  | addExecEntry
  | updateUID
  | updateGID
  | updateCapset
  | resolvePTraceTracee
  | resolveSignalTarget
  | resolveProcessCacheEntry
  | deleteEntry
  | dispatch
  | dequeueExited
deriving DecidableEq, Repr

/-- Fields of one decoded raw record that drive the control flow of
handleEvent: the type tag, the success of each decode layer, the syscall
return value, the (mount id, inode) pair of the affected file (for rename
this is the pair of the New file, for link of the Source file), the
overlay-filesystem answer of the mount resolver for mount-released
records, and the kernel-thread test used by fork and exit. -/
structure RawRecord where
  eventType : EventType
  headerOk : Bool
  payloadOk : Bool
  contextsOk : Bool
  retval : Int
  mountID : Nat
  inode : Nat
  isOverlayFS : Bool
  isKThread : Bool
deriving DecidableEq, Repr

/-- Payload case that only decodes its payload and registers nothing. -/
def simplePayload (r : RawRecord) : List Action × Option (List Action) :=
  ([Action.decodePayload], if r.payloadOk then some [] else none)

/-- Switch body of handleEvent for the generic (context-carrying) event
types: the actions emitted inside the case, and the deferred calls it
registers (none encodes an early return; unload-module is the one case
whose decode failure does not return early in the source). -/
def caseActions (r : RawRecord) : List Action × Option (List Action) :=
  match r.eventType with
  | .fileMount =>
    if r.payloadOk then
      ([Action.decodePayload, Action.setMountPoint, Action.setMountRoot,
        Action.mountInsert r.mountID, Action.delCacheEntries r.mountID], some [])
    else ([Action.decodePayload], none)
  | .fileUmount => simplePayload r
  | .fileOpen => simplePayload r
  | .fileMkdir => simplePayload r
  | .fileRmdir =>
    if r.payloadOk then
      ([Action.decodePayload],
       some (if 0 ≤ r.retval then [Action.invalidateDentryCall r.mountID r.inode] else []))
    else ([Action.decodePayload], none)
  | .fileUnlink =>
    if r.payloadOk then
      ([Action.decodePayload],
       some (if 0 ≤ r.retval then [Action.invalidateDentryCall r.mountID r.inode] else []))
    else ([Action.decodePayload], none)
  | .fileRename =>
    if r.payloadOk then
      ([Action.decodePayload],
       some (if 0 ≤ r.retval then [Action.invalidateDentryCall r.mountID r.inode] else []))
    else ([Action.decodePayload], none)
  | .fileChmod => simplePayload r
  | .fileChown => simplePayload r
  | .fileUtimes => simplePayload r
  | .fileLink =>
    if r.payloadOk then
      ([Action.decodePayload],
       some (if 0 ≤ r.retval then [Action.invalidateDentryCall r.mountID r.inode] else []))
    else ([Action.decodePayload], none)
  | .fileSetXAttr => simplePayload r
  | .fileRemoveXAttr => simplePayload r
  | .fork =>
    if r.payloadOk then
      if r.isKThread then ([Action.decodePayload], none)
      else ([Action.decodePayload, Action.applyBootTime, Action.addForkEntry], some [])
    else ([Action.decodePayload], none)
  | .exec =>
    if r.payloadOk then
      ([Action.decodePayload, Action.resolveNewProcessCacheEntryContext,
        Action.addExecEntry], some [])
    else ([Action.decodePayload], none)
  | .exit => ([], some [])
  | .setuid =>
    if r.payloadOk then ([Action.decodePayload], some [Action.updateUID])
    else ([Action.decodePayload], none)
  | .setgid =>
    if r.payloadOk then ([Action.decodePayload], some [Action.updateGID])
    else ([Action.decodePayload], none)
  | .capset =>
    if r.payloadOk then ([Action.decodePayload], some [Action.updateCapset])
    else ([Action.decodePayload], none)
  | .selinux => simplePayload r
  | .bpf => simplePayload r
  | .ptrace =>
    if r.payloadOk then ([Action.decodePayload, Action.resolvePTraceTracee], some [])
    else ([Action.decodePayload], none)
  | .mmap => simplePayload r
  | .mprotect => simplePayload r
  | .loadModule => simplePayload r
  | .unloadModule => ([Action.decodePayload], some [])
  | .signal =>
    if r.payloadOk then ([Action.decodePayload, Action.resolveSignalTarget], some [])
    else ([Action.decodePayload], none)
  | .splice => simplePayload r
  | .mountReleased => ([], none)
  | .invalidateDentry => ([], none)
  | .argsEnvs => ([], none)
  | .unknown => ([], none)

/-- handleEvent: the trace of calls performed for one raw record.  The
header decode comes first; mount-released, invalidate-dentry and args-envs
records are special-cased before the generic context decode and return
right after their cache maintenance; every other type attempts the context
decode, runs its payload case (registering deferred calls), resolves the
event context (for exit instead: returns for a kernel thread, else
registers the deferred DeleteEntry), dispatches, flushes exited processes,
and then the deferred calls run in last-in-first-out order at return. -/
def handleEvent (r : RawRecord) : List Action :=
  if !r.headerOk then []
  else
    Action.countEvent ::
    match r.eventType with
    | .mountReleased =>
      Action.decodePayload ::
        (if r.payloadOk then
          [Action.delCacheEntries r.mountID] ++
            (if r.isOverlayFS then [Action.setRevision r.mountID] else []) ++
            [Action.mountDelete r.mountID]
        else [])
    | .invalidateDentry =>
      Action.decodePayload ::
        (if r.payloadOk then [Action.invalidateDentryCall r.mountID r.inode] else [])
    | .argsEnvs =>
      Action.decodePayload :: (if r.payloadOk then [Action.updateArgsEnvs] else [])
    | t =>
      Action.decodeContexts ::
        (if !r.contextsOk then []
         else
           (caseActions r).1 ++
             match (caseActions r).2 with
             | none => []
             | some deferred =>
               if t == .exit then
                 if r.isKThread then []
                 else Action.dispatch :: Action.dequeueExited ::
                   (deferred ++ [Action.deleteEntry]).reverse
               else
                 Action.resolveProcessCacheEntry :: Action.dispatch ::
                   Action.dequeueExited :: deferred.reverse)

end Probe

/-- C5: when decoding a raw record, the event types mount-released,
invalidate-dentry and args-envs are special-cased before the generic
process/span/container context decode: for these three types the handler
decodes only the type-specific payload, performs its cache maintenance,
and returns without attempting the context decode and without dispatching
the event. -/
theorem C5_special_cases_bypass_context_decode (r : Probe.RawRecord)
    (hh : r.headerOk = true)
    (ht : r.eventType = .mountReleased ∨ r.eventType = .invalidateDentry ∨
      r.eventType = .argsEnvs) :
    Probe.Action.decodeContexts ∉ Probe.handleEvent r ∧
    Probe.Action.dispatch ∉ Probe.handleEvent r ∧
    Probe.Action.decodePayload ∈ Probe.handleEvent r ∧
    (r.payloadOk = true →
      (r.eventType = .mountReleased →
        Probe.Action.delCacheEntries r.mountID ∈ Probe.handleEvent r ∧
        Probe.Action.mountDelete r.mountID ∈ Probe.handleEvent r) ∧
      (r.eventType = .invalidateDentry →
        Probe.Action.invalidateDentryCall r.mountID r.inode ∈ Probe.handleEvent r) ∧
      (r.eventType = .argsEnvs →
        Probe.Action.updateArgsEnvs ∈ Probe.handleEvent r)) := by
  rcases ht with ht | ht | ht <;>
    cases hp : r.payloadOk <;>
    cases ho : r.isOverlayFS <;>
    simp [Probe.handleEvent, hh, ht, hp, ho]

/-- Witness for C5 at a concrete mount-released record. -/
theorem C5_special_cases_bypass_context_decode_witness :
    ((Probe.RawRecord.mk .mountReleased true true true 0 7 0 true false).headerOk = true ∧
      ((Probe.RawRecord.mk .mountReleased true true true 0 7 0 true false).eventType =
          .mountReleased ∨
        (Probe.RawRecord.mk .mountReleased true true true 0 7 0 true false).eventType =
          .invalidateDentry ∨
        (Probe.RawRecord.mk .mountReleased true true true 0 7 0 true false).eventType =
          .argsEnvs)) ∧
    (Probe.Action.decodeContexts ∉
        Probe.handleEvent (Probe.RawRecord.mk .mountReleased true true true 0 7 0 true false) ∧
      Probe.Action.dispatch ∉
        Probe.handleEvent (Probe.RawRecord.mk .mountReleased true true true 0 7 0 true false) ∧
      Probe.Action.decodePayload ∈
        Probe.handleEvent (Probe.RawRecord.mk .mountReleased true true true 0 7 0 true false) ∧
      ((Probe.RawRecord.mk .mountReleased true true true 0 7 0 true false).payloadOk = true →
        ((Probe.RawRecord.mk .mountReleased true true true 0 7 0 true false).eventType =
            .mountReleased →
          Probe.Action.delCacheEntries
              (Probe.RawRecord.mk .mountReleased true true true 0 7 0 true false).mountID ∈
            Probe.handleEvent
              (Probe.RawRecord.mk .mountReleased true true true 0 7 0 true false) ∧
          Probe.Action.mountDelete
              (Probe.RawRecord.mk .mountReleased true true true 0 7 0 true false).mountID ∈
            Probe.handleEvent
              (Probe.RawRecord.mk .mountReleased true true true 0 7 0 true false)) ∧
        ((Probe.RawRecord.mk .mountReleased true true true 0 7 0 true false).eventType =
            .invalidateDentry →
          Probe.Action.invalidateDentryCall
              (Probe.RawRecord.mk .mountReleased true true true 0 7 0 true false).mountID
              (Probe.RawRecord.mk .mountReleased true true true 0 7 0 true false).inode ∈
            Probe.handleEvent
              (Probe.RawRecord.mk .mountReleased true true true 0 7 0 true false)) ∧
        ((Probe.RawRecord.mk .mountReleased true true true 0 7 0 true false).eventType =
            .argsEnvs →
          Probe.Action.updateArgsEnvs ∈
            Probe.handleEvent
              (Probe.RawRecord.mk .mountReleased true true true 0 7 0 true false)))) :=
  ⟨⟨rfl, Or.inl rfl⟩,
    C5_special_cases_bypass_context_decode _ rfl (Or.inl rfl)⟩

/-- C6: for every rmdir, unlink or rename record whose syscall return value
is nonnegative (and whose decodes succeed), the dentry-cache invalidation
of the affected (mount id, inode) is a deferred call that runs only after
DispatchEvent for the same record has completed: the trace splits around
its single dispatch with the invalidation strictly after it and nowhere
before it. -/
theorem C6_invalidation_after_dispatch (r : Probe.RawRecord)
    (hh : r.headerOk = true) (hp : r.payloadOk = true) (hc : r.contextsOk = true)
    (hrv : 0 ≤ r.retval)
    (ht : r.eventType = .fileRmdir ∨ r.eventType = .fileUnlink ∨
      r.eventType = .fileRename) :
    ∃ pre suf, Probe.handleEvent r = pre ++ Probe.Action.dispatch :: suf ∧
      Probe.Action.invalidateDentryCall r.mountID r.inode ∈ suf ∧
      Probe.Action.dispatch ∉ pre ∧ Probe.Action.dispatch ∉ suf ∧
      Probe.Action.invalidateDentryCall r.mountID r.inode ∉ pre := by
  have htrace : Probe.handleEvent r =
      [Probe.Action.countEvent, Probe.Action.decodeContexts, Probe.Action.decodePayload,
       Probe.Action.resolveProcessCacheEntry, Probe.Action.dispatch,
       Probe.Action.dequeueExited,
       Probe.Action.invalidateDentryCall r.mountID r.inode] := by
    rcases ht with ht | ht | ht <;>
      simp [Probe.handleEvent, Probe.caseActions, hh, hp, hc, ht, if_pos hrv]
  refine ⟨[Probe.Action.countEvent, Probe.Action.decodeContexts, Probe.Action.decodePayload,
      Probe.Action.resolveProcessCacheEntry],
    [Probe.Action.dequeueExited, Probe.Action.invalidateDentryCall r.mountID r.inode],
    by rw [htrace]; rfl, by simp, by simp, by simp, by simp⟩

/-- Witness for C6 at a concrete successful rmdir record. -/
theorem C6_invalidation_after_dispatch_witness :
    ((Probe.RawRecord.mk .fileRmdir true true true 0 4 9 false false).headerOk = true ∧
      (Probe.RawRecord.mk .fileRmdir true true true 0 4 9 false false).payloadOk = true ∧
      (Probe.RawRecord.mk .fileRmdir true true true 0 4 9 false false).contextsOk = true ∧
      0 ≤ (Probe.RawRecord.mk .fileRmdir true true true 0 4 9 false false).retval ∧
      ((Probe.RawRecord.mk .fileRmdir true true true 0 4 9 false false).eventType =
          .fileRmdir ∨
        (Probe.RawRecord.mk .fileRmdir true true true 0 4 9 false false).eventType =
          .fileUnlink ∨
        (Probe.RawRecord.mk .fileRmdir true true true 0 4 9 false false).eventType =
          .fileRename)) ∧
    (∃ pre suf,
      Probe.handleEvent (Probe.RawRecord.mk .fileRmdir true true true 0 4 9 false false) =
        pre ++ Probe.Action.dispatch :: suf ∧
      Probe.Action.invalidateDentryCall
          (Probe.RawRecord.mk .fileRmdir true true true 0 4 9 false false).mountID
          (Probe.RawRecord.mk .fileRmdir true true true 0 4 9 false false).inode ∈ suf ∧
      Probe.Action.dispatch ∉ pre ∧ Probe.Action.dispatch ∉ suf ∧
      Probe.Action.invalidateDentryCall
          (Probe.RawRecord.mk .fileRmdir true true true 0 4 9 false false).mountID
          (Probe.RawRecord.mk .fileRmdir true true true 0 4 9 false false).inode ∉ pre) :=
  ⟨⟨rfl, rfl, rfl, by decide, Or.inl rfl⟩,
    C6_invalidation_after_dispatch _ rfl rfl rfl (by decide) (Or.inl rfl)⟩

/-- C3: FlushDiscarders invoked while another flush is in progress (the
flushingDiscarders flag is set) fails fast with the already-flushing error
instead of performing a second flush — both discarder tables are left
untouched — the flag having been set with a compare-and-swap, and the
deferred unfreeze step still clears the flag on this failure path. -/
theorem C3_flush_discarders_fails_fast (p : Probe.ProbeFlushState)
    (h : p.flushingDiscarders = true) :
    (Probe.FlushDiscarders p).2 = some ("already flushing discarders") ∧
    (Probe.FlushDiscarders p).1.inodeDiscarders = p.inodeDiscarders ∧
    (Probe.FlushDiscarders p).1.pidDiscarders = p.pidDiscarders ∧
    (Probe.FlushDiscarders p).1.flushingDiscarders = false := by
  simp [Probe.FlushDiscarders, Probe.unfreezeDiscarders, h]

/-- Witness for C3 at a concrete in-progress state with non-empty
tables. -/
theorem C3_flush_discarders_fails_fast_witness :
    ((Probe.ProbeFlushState.mk true 1 [(1, 2)] [3]).flushingDiscarders = true) ∧
    ((Probe.FlushDiscarders (Probe.ProbeFlushState.mk true 1 [(1, 2)] [3])).2 =
        some ("already flushing discarders") ∧
      (Probe.FlushDiscarders (Probe.ProbeFlushState.mk true 1 [(1, 2)] [3])).1.inodeDiscarders =
        (Probe.ProbeFlushState.mk true 1 [(1, 2)] [3]).inodeDiscarders ∧
      (Probe.FlushDiscarders (Probe.ProbeFlushState.mk true 1 [(1, 2)] [3])).1.pidDiscarders =
        (Probe.ProbeFlushState.mk true 1 [(1, 2)] [3]).pidDiscarders ∧
      (Probe.FlushDiscarders (Probe.ProbeFlushState.mk true 1 [(1, 2)] [3])).1.flushingDiscarders =
        false) :=
  ⟨rfl, C3_flush_discarders_fails_fast _ rfl⟩

/-- C8: dentry invalidation with an invalid (mount id, inode) pair, mount
id 0 or inode 0, is a no-op: invalidateDentry returns with the whole cache
state unchanged (dentry cache and every other cache). -/
theorem C8_invalidate_dentry_invalid_noop (st : Probe.ProbeCaches)
    (mountID inode : Nat) (h : mountID = 0 ∨ inode = 0) :
    Probe.invalidateDentry st mountID inode = st := by
  rcases h with h | h <;> simp [Probe.invalidateDentry, h]

/-- Witness for C8 at a concrete cache state and the pair (0, 5). -/
theorem C8_invalidate_dentry_invalid_noop_witness :
    ((0 : Nat) = 0 ∨ (5 : Nat) = 0) ∧
    Probe.invalidateDentry
        (Probe.ProbeCaches.mk [((4, 5), "/etc/passwd")] [(4, "ext4")]) 0 5 =
      Probe.ProbeCaches.mk [((4, 5), "/etc/passwd")] [(4, "ext4")] :=
  ⟨Or.inl rfl, C8_invalidate_dentry_invalid_noop _ 0 5 (Or.inl rfl)⟩

/-- C9: an ActivityDump whose selector is empty (both Comm and ContainerID
are empty strings) matches every non-nil ProcessCacheEntry, and Matches on
a nil entry always returns false. -/
theorem C9_empty_selector (ad : Probe.ActivityDump)
    (hcomm : ad.Comm = "") (hcid : ad.ContainerID = "") :
    (∀ e : Probe.ProcessCacheEntry, ad.Matches (some e) = true) ∧
    (∀ ad2 : Probe.ActivityDump, ad2.Matches none = false) := by
  constructor
  · intro e
    simp [Probe.ActivityDump.Matches, hcomm, hcid]
  · intro ad2
    simp [Probe.ActivityDump.Matches]

/-- Witness for C9 at a concrete empty-selector dump and entry. -/
theorem C9_empty_selector_witness :
    ((Probe.ActivityDump.mk [] [] false "" "").Comm = "" ∧
      (Probe.ActivityDump.mk [] [] false "" "").ContainerID = "") ∧
    ((∀ e : Probe.ProcessCacheEntry,
        (Probe.ActivityDump.mk [] [] false "" "").Matches (some e) = true) ∧
      (∀ ad2 : Probe.ActivityDump, ad2.Matches none = false)) :=
  ⟨⟨rfl, rfl⟩, C9_empty_selector _ rfl rfl⟩

namespace Probe

/-- Concrete credentials for the argv comparison examples. -/
def cexCreds : Credentials :=
  ⟨0, 0, "", "", 0, 0, "", "", 0, 0, "", "", 0, 0⟩

/-- Concrete process with the given argv for the argv comparison
examples. -/
def cexProcess (argv : List String) : Process :=
  { Pid := 1, Comm := "ls", PathnameStr := "/bin/ls", ContainerID := ""
    Cookie := 0, Credentials := cexCreds, Argv := argv }

/-- Tree node whose argv is the list with a duplicate. -/
def cexNode : ProcessActivityNode :=
  .mk (cexProcess (["a", "a"])) .Runtime [] []

/-- Cache entry whose argv has the same length but different members. -/
def cexEntry : ProcessCacheEntry :=
  .mk (cexProcess (["a", "b"])) none

end Probe

/-- C7 counterexample: with argument matching enabled and identical comm,
path and credentials, Matches returns true on argv lists with a duplicate,
node argv a,a against entry argv a,b, although the two lists are not equal
as sets (b belongs to only one of them); so Matches is not set equality of
the argv lists. -/
theorem C7_argv_set_equality_cex :
    Probe.ProcessActivityNode.Matches Probe.cexNode Probe.cexEntry true = true ∧
    ¬ (∀ s : String, s ∈ Probe.GetProcessArgv Probe.cexNode.Process ↔
        s ∈ Probe.GetProcessArgv Probe.cexEntry.process) := by
  constructor
  · rfl
  · intro h
    have hb := (h ("b")).mpr (by
      simp [Probe.GetProcessArgv, Probe.cexEntry, Probe.cexProcess,
        Probe.ProcessCacheEntry.process])
    simp [Probe.GetProcessArgv, Probe.cexNode, Probe.cexProcess,
      Probe.ProcessActivityNode.Process] at hb

/-- C7 amended: with argument matching enabled and equal comm, executable
path and credentials, Matches compares the argv lists with equal-length
plus containment semantics: it returns true exactly when the lists have
equal length and every element of the node argv occurs in the entry argv;
when both argv lists are duplicate-free this coincides with
order-independent set equality. -/
theorem C7_argv_matching_amended (pan : Probe.ProcessActivityNode)
    (entry : Probe.ProcessCacheEntry)
    (hcomm : pan.Process.Comm = entry.process.Comm)
    (hpath : pan.Process.PathnameStr = entry.process.PathnameStr)
    (hcreds : pan.Process.Credentials = entry.process.Credentials) :
    (pan.Matches entry true = true ↔
      ((Probe.GetProcessArgv pan.Process).length =
          (Probe.GetProcessArgv entry.process).length ∧
        ∀ a ∈ Probe.GetProcessArgv pan.Process,
          a ∈ Probe.GetProcessArgv entry.process)) ∧
    ((Probe.GetProcessArgv pan.Process).Nodup →
      (Probe.GetProcessArgv entry.process).Nodup →
      (pan.Matches entry true = true ↔
        ∀ s, s ∈ Probe.GetProcessArgv pan.Process ↔
          s ∈ Probe.GetProcessArgv entry.process)) := by
  have hmain : pan.Matches entry true = true ↔
      ((Probe.GetProcessArgv pan.Process).length =
          (Probe.GetProcessArgv entry.process).length ∧
        ∀ a ∈ Probe.GetProcessArgv pan.Process,
          a ∈ Probe.GetProcessArgv entry.process) := by
    unfold Probe.ProcessActivityNode.Matches
    rw [if_pos (by simp [hcomm, hpath, hcreds])]
    simp only [if_true]
    constructor
    · intro h
      by_cases hlen : (Probe.GetProcessArgv pan.Process).length =
          (Probe.GetProcessArgv entry.process).length
      · refine ⟨hlen, ?_⟩
        intro a ha
        rw [if_neg (by simp [hlen])] at h
        have := List.all_eq_true.mp h a ha
        simpa [List.any_eq_true] using this
      · rw [if_pos (by simpa using hlen)] at h
        exact absurd h (by simp)
    · rintro ⟨hlen, hsub⟩
      rw [if_neg (by simp [hlen])]
      refine List.all_eq_true.mpr ?_
      intro a ha
      simpa [List.any_eq_true] using hsub a ha
  refine ⟨hmain, ?_⟩
  intro hnd1 hnd2
  rw [hmain]
  constructor
  · rintro ⟨hlen, hsub⟩
    have hperm : List.Perm (Probe.GetProcessArgv pan.Process)
        (Probe.GetProcessArgv entry.process) :=
      (hnd1.subperm hsub).perm_of_length_le (le_of_eq hlen.symm)
    intro s
    exact ⟨fun hs => hperm.mem_iff.mp hs, fun hs => hperm.mem_iff.mpr hs⟩
  · intro hiff
    have hsub1 : Probe.GetProcessArgv pan.Process ⊆ Probe.GetProcessArgv entry.process :=
      fun a ha => (hiff a).mp ha
    have hsub2 : Probe.GetProcessArgv entry.process ⊆ Probe.GetProcessArgv pan.Process :=
      fun a ha => (hiff a).mpr ha
    have hle1 := (hnd1.subperm hsub1).length_le
    have hle2 := (hnd2.subperm hsub2).length_le
    exact ⟨le_antisymm hle1 hle2, fun a ha => hsub1 ha⟩

/-- Witness for the amended C7 at concrete processes whose argv lists are
permutations of each other. -/
theorem C7_argv_matching_amended_witness :
    ((Probe.ProcessActivityNode.mk (Probe.cexProcess (["x", "y"])) .Runtime [] []).Process.Comm =
        (Probe.ProcessCacheEntry.mk (Probe.cexProcess (["y", "x"])) none).process.Comm ∧
      (Probe.ProcessActivityNode.mk (Probe.cexProcess (["x", "y"])) .Runtime [] []).Process.PathnameStr =
        (Probe.ProcessCacheEntry.mk (Probe.cexProcess (["y", "x"])) none).process.PathnameStr ∧
      (Probe.ProcessActivityNode.mk (Probe.cexProcess (["x", "y"])) .Runtime [] []).Process.Credentials =
        (Probe.ProcessCacheEntry.mk (Probe.cexProcess (["y", "x"])) none).process.Credentials) ∧
    ((Probe.ProcessActivityNode.mk (Probe.cexProcess (["x", "y"])) .Runtime [] []).Matches
        (Probe.ProcessCacheEntry.mk (Probe.cexProcess (["y", "x"])) none) true = true ↔
      ((Probe.GetProcessArgv (Probe.ProcessActivityNode.mk (Probe.cexProcess (["x", "y"])) .Runtime [] []).Process).length =
          (Probe.GetProcessArgv (Probe.ProcessCacheEntry.mk (Probe.cexProcess (["y", "x"])) none).process).length ∧
        ∀ a ∈ Probe.GetProcessArgv (Probe.ProcessActivityNode.mk (Probe.cexProcess (["x", "y"])) .Runtime [] []).Process,
          a ∈ Probe.GetProcessArgv (Probe.ProcessCacheEntry.mk (Probe.cexProcess (["y", "x"])) none).process)) :=
  ⟨⟨rfl, rfl, rfl⟩,
    (C7_argv_matching_amended
      (Probe.ProcessActivityNode.mk (Probe.cexProcess (["x", "y"])) .Runtime [] [])
      (Probe.ProcessCacheEntry.mk (Probe.cexProcess (["y", "x"])) none)
      rfl rfl rfl).1⟩

/-- C2: for every ProcessCacheEntry and every N at least 1, starting from an
entry held by M other holders (refCount = M), retaining it N times and then
performing the N + M releases of all holders (releases of the same entry are
indistinguishable operations, so any interleaving is a permutation of the
same N + M steps): the onRelease eviction callback does not fire before the
last release, and fires exactly once when the last release brings the
reference count to zero. -/
theorem C2_refcount_eviction_once (N M : Nat) (pc0 : Model.ProcessCacheEntry)
    (hN : 1 ≤ N) (hMN : N + M < Model.U64MOD) (h0 : pc0.refCount = M)
    (hcb : pc0.hasOnRelease = true) (hf : pc0.onReleaseFired = 0) :
    (∀ k, k < N + M →
      (Model.ProcessCacheEntry.Release^[k]
        (Model.ProcessCacheEntry.Retain^[N] pc0)).onReleaseFired = 0) ∧
    (Model.ProcessCacheEntry.Release^[N + M]
        (Model.ProcessCacheEntry.Retain^[N] pc0)).onReleaseFired = 1 := by
  have hret : Model.ProcessCacheEntry.Retain^[N] pc0 =
      { pc0 with refCount := pc0.refCount + N } :=
    Model.Retain_iterate N pc0 (by omega)
  constructor
  · intro k hk
    rw [hret, Model.Release_iterate k _ (by simpa using by omega) (by simpa using by omega)]
    simpa using hf
  · have hsplit : N + M = (N + M - 1) + 1 := by omega
    rw [hsplit, Function.iterate_succ_apply', hret,
      Model.Release_iterate (N + M - 1) _ (by simpa using by omega) (by simpa using by omega)]
    rw [Model.Release_fires _ (by simpa using by omega) (by simpa using hcb)]
    simpa using hf

/-- Witness for C2 at N = 2, M = 1. -/
theorem C2_refcount_eviction_once_witness :
    (1 ≤ 2 ∧ 2 + 1 < Model.U64MOD ∧
      (Model.ProcessCacheEntry.mk 1 true false 0 0).refCount = 1 ∧
      (Model.ProcessCacheEntry.mk 1 true false 0 0).hasOnRelease = true ∧
      (Model.ProcessCacheEntry.mk 1 true false 0 0).onReleaseFired = 0) ∧
    ((∀ k, k < 2 + 1 →
      (Model.ProcessCacheEntry.Release^[k]
        (Model.ProcessCacheEntry.Retain^[2]
          (Model.ProcessCacheEntry.mk 1 true false 0 0))).onReleaseFired = 0) ∧
    (Model.ProcessCacheEntry.Release^[2 + 1]
        (Model.ProcessCacheEntry.Retain^[2]
          (Model.ProcessCacheEntry.mk 1 true false 0 0))).onReleaseFired = 1) :=
  ⟨⟨by decide, by decide, rfl, rfl, rfl⟩,
    C2_refcount_eviction_once 2 1 _ (by decide) (by decide) rfl rfl rfl⟩

/-- C10: calling Release on a ProcessCacheEntry whose reference count is
already 0 wraps the uint64 counter to 2^64 - 1; neither the onRelease
eviction callback nor the release callback fires, and no amount of further
releases smaller than 2^64 - 1 can ever fire the eviction callback. -/
theorem C10_release_underflow (pc : Model.ProcessCacheEntry)
    (h0 : pc.refCount = 0) (hf : pc.onReleaseFired = 0)
    (hg : pc.releaseCbFired = 0) :
    pc.Release.refCount = Model.U64MOD - 1 ∧
    pc.Release.onReleaseFired = 0 ∧ pc.Release.releaseCbFired = 0 ∧
    (∀ k, k < Model.U64MOD - 1 →
      (Model.ProcessCacheEntry.Release^[k] pc.Release).onReleaseFired = 0) := by
  rw [Model.Release_of_zero pc h0]
  refine ⟨rfl, by simpa using hf, by simpa using hg, ?_⟩
  intro k hk
  rw [Model.Release_iterate k _ (by simpa using hk) (by simp; decide)]
  simpa using hf

/-- Witness for C10 at a concrete never-retained entry. -/
theorem C10_release_underflow_witness :
    ((Model.ProcessCacheEntry.mk 0 true true 0 0).refCount = 0 ∧
      (Model.ProcessCacheEntry.mk 0 true true 0 0).onReleaseFired = 0 ∧
      (Model.ProcessCacheEntry.mk 0 true true 0 0).releaseCbFired = 0) ∧
    ((Model.ProcessCacheEntry.mk 0 true true 0 0).Release.refCount = Model.U64MOD - 1 ∧
      (Model.ProcessCacheEntry.mk 0 true true 0 0).Release.onReleaseFired = 0 ∧
      (Model.ProcessCacheEntry.mk 0 true true 0 0).Release.releaseCbFired = 0 ∧
      (∀ k, k < Model.U64MOD - 1 →
        (Model.ProcessCacheEntry.Release^[k]
          (Model.ProcessCacheEntry.mk 0 true true 0 0).Release).onReleaseFired = 0)) :=
  ⟨⟨rfl, rfl, rfl⟩, C10_release_underflow _ rfl rfl rfl⟩

end DD
